import Mathlib

/-!
Shallow embedding of the nessie service worker and loader-progress hooks
(src/assets/js/sw.js, both the unversioned and the versioned revision of the
service worker, plus the load-progress reporter).

Cache stores are modelled as association lists from request path to captured
response, the store registry as an association list from cache name to store,
and the network as a function from path to (optionally failing) response.
-/

namespace Nessie

/-- A captured HTTP response body (opaque payload; a cached Response object is
always a present, truthy value, so presence is modelled by `Option`). -/
abbrev Response := String

/-- A Cache Store: persistent mapping from request path to captured response. -/
abbrev Store := List (String × Response)

/-- The Store Registry: every named cache store existing for this origin. -/
abbrev Registry := List (String × Store)

/-- JS `String.prototype.startsWith`: character-sequence prefix test. -/
def jsStartsWith (s pre : String) : Bool :=
  pre.data.isPrefixOf s.data

/-- Unversioned revision: `var cacheName = "nessie-pwa"`. -/
def cacheNameUnversioned : String := "nessie-pwa"

/-- Versioned revision:
`var cacheName = "nessie-pwa-" + (typeof __BUILD_ID__ !== 'undefined' ? __BUILD_ID__ : 'development')`.
`none` models an undefined `__BUILD_ID__`. -/
def cacheName (buildId : Option String) : String :=
  "nessie-pwa-" ++ (match buildId with
    | some b => b
    | none => "development")

/-- `var filesToCache = ["./", "./index.html", "./nessie.js", "./nessie_bg.wasm"]`. -/
def filesToCache : List String :=
  ["./", "./index.html", "./nessie.js", "./nessie_bg.wasm"]

/-- The fetch half of `cache.addAll(paths)`: fetch every path; if any single
fetch fails the whole batch fails (Promise.all semantics), otherwise the list
of (path, response) pairs to be stored is produced. -/
def fetchBatch (net : String → Option Response) : List String → Option (List (String × Response))
  | [] => some []
  | p :: ps =>
    match net p with
    | none => none
    | some r => (fetchBatch net ps).map (fun es => (p, r) :: es)

/-- `cache.addAll(filesToCache)` on an opened store: all-or-nothing batch
fetch-and-put; newly stored entries shadow any previous entry for the same
path. `none` models the rejected promise. -/
def addAll (net : String → Option Response) (cache : Store) (paths : List String) :
    Option Store :=
  (fetchBatch net paths).map (fun es => es ++ cache)

/-- The install handler: open (or create) the store for the current cache name
and `addAll` the asset manifest into it. `none` models a rejected
`e.waitUntil` promise, i.e. a failed install. -/
def installHandler (net : String → Option Response) (cache : Store) : Option Store :=
  addAll net cache filesToCache

/-- The host lets the controller proceed past `installed` toward `active` only
if the promise passed to install's `e.waitUntil` resolved. -/
def activates (net : String → Option Response) (cache : Store) : Bool :=
  (installHandler net cache).isSome

/-- The activate handler of the versioned revision:
`caches.keys()` then delete every name with
`name.startsWith('nessie-pwa-') && name !== cacheName`.
The result is the registry after all deletions complete. -/
def activateHandler (current : String) (reg : Registry) : Registry :=
  reg.filter (fun p => !(jsStartsWith p.1 "nessie-pwa-" && p.1 != current))

/-- `caches.match(request)`: search every cache of the origin's CacheStorage
in creation order (the registry's list order) and resolve with the first
populated entry found, or with undefined when no cache holds the path. -/
def cachesMatch (reg : Registry) (req : String) : Option Response :=
  match reg with
  | [] => none
  | p :: rest =>
    match p.2.lookup req with
    | some r => some r
    | none => cachesMatch rest req

/-- The fetch handler (identical in both revisions):
`caches.match(e.request).then(response => response || fetch(e.request))`.
`caches.match` searches every cache in the registry, not only the current one.
Returns the response given to `e.respondWith`, the number of network fetches
issued while handling this request, and the registry as it stands afterwards. -/
def fetchHandler (reg : Registry) (net : String → Response) (req : String) :
    Response × Nat × Registry :=
  match cachesMatch reg req with
  | some r => (r, 0, reg)
  | none => (net req, 1, reg)

/-- Whether `r` is a response some cache store of the registry holds for the
requested path. -/
def isCachedIn (reg : Registry) (req : String) (r : Response) : Bool :=
  reg.any (fun p => p.2.lookup req == some r)

/-- The DOM state the Load Progress Reporter touches. The three `has…` flags
record whether `document.getElementById` found the element at construction
(the references are resolved once); the remaining fields are the style and
text properties the hooks assign. -/
structure LoaderUI where
  hasContainer : Bool
  hasBar : Bool
  hasText : Bool
  containerDisplay : String
  barWidth : String
  statusText : String
  textColor : String
deriving DecidableEq

/-- JS `Math.round` on exact rationals: round half toward positive infinity. -/
def jsRound (q : ℚ) : ℤ := (q + 1/2).floor

/-- `onStart`: reveal the progress container when it exists. -/
def onStart (ui : LoaderUI) : LoaderUI :=
  if ui.hasContainer then { ui with containerDisplay := "block" } else ui

/-- `onProgress({current, total})`: when `total > 0` and the bar element
exists, set the bar width to the rounded percentage and, when the text element
exists, the status text to match. -/
def onProgress (current total : Nat) (ui : LoaderUI) : LoaderUI :=
  if 0 < total ∧ ui.hasBar = true then
    let percent : ℤ := jsRound ((current : ℚ) / (total : ℚ) * 100)
    let ui1 := { ui with barWidth := toString percent ++ "%" }
    if ui.hasText then
      { ui1 with statusText := "Loading... " ++ toString percent ++ "%" }
    else ui1
  else ui

/-- `onComplete`: set the status text when the text element exists. -/
def onComplete (ui : LoaderUI) : LoaderUI :=
  if ui.hasText then { ui with statusText := "Initializing..." } else ui

/-- `onSuccess`: logs only; no DOM mutation. -/
def onSuccess (ui : LoaderUI) : LoaderUI := ui

/-- `onFailure(error)`: hide the progress container when it exists; when the
text element exists, show the error message in red. -/
def onFailure (error : String) (ui : LoaderUI) : LoaderUI :=
  let ui1 := if ui.hasContainer then { ui with containerDisplay := "none" } else ui
  if ui1.hasText then
    { ui1 with statusText := "Failed to load: " ++ error, textColor := "red" }
  else ui1

/-! ### Helper lemmas -/

theorem isPrefixOf_append_left (l t : List Char) : l.isPrefixOf (l ++ t) = true := by
  induction l with
  | nil => simp
  | cons a as ih => simp [List.isPrefixOf, ih]

theorem jsStartsWith_append (pre s : String) : jsStartsWith (pre ++ s) pre = true := by
  simp [jsStartsWith, String.data_append, isPrefixOf_append_left]

theorem string_append_left_cancel {p s t : String} (h : p ++ s = p ++ t) : s = t := by
  apply String.ext
  have hd : p.data ++ s.data = p.data ++ t.data := by
    simpa [String.data_append] using congrArg String.data h
  exact List.append_cancel_left hd

theorem cacheName_inj {b1 b2 : String}
    (h : cacheName (some b1) = cacheName (some b2)) : b1 = b2 :=
  string_append_left_cancel (p := "nessie-pwa-") h

theorem fetchBatch_eq_none_of_mem {net : String → Option Response} {ps : List String}
    {p : String} (hp : p ∈ ps) (hf : net p = none) : fetchBatch net ps = none := by
  induction ps with
  | nil => cases hp
  | cons q qs ih =>
    rcases List.mem_cons.mp hp with rfl | hmem
    · simp [fetchBatch, hf]
    · cases hq : net q with
      | none => simp [fetchBatch, hq]
      | some r => simp [fetchBatch, hq, ih hmem]

theorem fetchBatch_lookup_isSome {net : String → Option Response} {ps : List String}
    {es : List (String × Response)} (h : fetchBatch net ps = some es) :
    ∀ p ∈ ps, (es.lookup p).isSome = true := by
  induction ps generalizing es with
  | nil => intro p hp; cases hp
  | cons q qs ih =>
    intro p hp
    cases hq : net q with
    | none => simp [fetchBatch, hq] at h
    | some r =>
      cases hrest : fetchBatch net qs with
      | none => simp [fetchBatch, hq, hrest] at h
      | some es' =>
        simp only [fetchBatch, hq, hrest, Option.map_some', Option.some.injEq] at h
        subst h
        rcases List.mem_cons.mp hp with rfl | hmem
        · simp
        · rcases hpq : p == q with _ | _
          · simpa [List.lookup_cons, hpq] using ih hrest p hmem
          · simp [List.lookup_cons, hpq]

theorem cachesMatch_isSome_of_mem {reg : Registry} {n : String} {s : Store}
    {req : String} {r : Response} (hs : (n, s) ∈ reg) (h : s.lookup req = some r) :
    (cachesMatch reg req).isSome = true := by
  induction reg with
  | nil => cases hs
  | cons p rest ih =>
    cases hl : p.2.lookup req with
    | some r0 => simp [cachesMatch, hl]
    | none =>
      rcases List.mem_cons.mp hs with heq | hmem
      · rw [← heq] at hl
        simp [h] at hl
      · simp [cachesMatch, hl, ih hmem]

theorem isCachedIn_of_cachesMatch {reg : Registry} {req : String} {r' : Response}
    (h : cachesMatch reg req = some r') : isCachedIn reg req r' = true := by
  induction reg with
  | nil => simp [cachesMatch] at h
  | cons p rest ih =>
    cases hl : p.2.lookup req with
    | some r0 =>
      simp only [cachesMatch, hl, Option.some.injEq] at h
      subst h
      simp [isCachedIn, hl]
    | none =>
      simp only [cachesMatch, hl] at h
      have hr := ih h
      simp only [isCachedIn] at hr ⊢
      rw [List.any_cons]
      simp [hr]

theorem cachesMatch_eq_none_of_all {reg : Registry} {req : String}
    (h : ∀ n s, (n, s) ∈ reg → s.lookup req = none) : cachesMatch reg req = none := by
  induction reg with
  | nil => rfl
  | cons p rest ih =>
    obtain ⟨n, s⟩ := p
    have hp : s.lookup req = none := h n s (List.mem_cons_self _ _)
    exact by simp [cachesMatch, hp, ih (fun n' s' hm => h n' s' (List.mem_cons_of_mem _ hm))]

/-! ### Claim theorems -/

/-- C1 counterexample: the current store `nessie-pwa-v2` holds "fresh" for
"./", yet `caches.match` searches caches in creation order, so the
earlier-created legacy `nessie-pwa` store answers with "stale" — the intercept
phase does not return the current store's cached response. -/
theorem cache_first_on_hit_counterexample :
    ([("./", "fresh")] : Store).lookup "./" = some "fresh" ∧
      ("nessie-pwa-v2", ([("./", "fresh")] : Store)) ∈
        ([("nessie-pwa", [("./", "stale")]), ("nessie-pwa-v2", [("./", "fresh")])] : Registry) ∧
      (fetchHandler [("nessie-pwa", [("./", "stale")]), ("nessie-pwa-v2", [("./", "fresh")])]
          (fun _ => "netResp") "./").1 = "stale" ∧
      ("stale" : Response) ≠ "fresh" := by
  refine ⟨by decide, by decide, by decide, by decide⟩

/-- C1 amended. Cache-first on hit: whenever the current Cache Store (present
in the registry) has a populated entry for the requested path, the fetch
handler issues zero network fetches, leaves every store unchanged, and answers
with a cached response — the first match over all caches in creation order,
which need not be the current store's own entry. -/
theorem cache_first_on_hit_amended (reg : Registry) (net : String → Response) (req : String)
    (cur : String) (s : Store) (r : Response)
    (hs : (cur, s) ∈ reg) (h : s.lookup req = some r) :
    (fetchHandler reg net req).2.1 = 0 ∧
    (fetchHandler reg net req).2.2 = reg ∧
    isCachedIn reg req (fetchHandler reg net req).1 = true := by
  have hsome := cachesMatch_isSome_of_mem hs h
  cases hm : cachesMatch reg req with
  | none => rw [hm] at hsome; simp at hsome
  | some r' =>
    refine ⟨?_, ?_, ?_⟩ <;> simp [fetchHandler, hm, isCachedIn_of_cachesMatch hm]

/-- Witness for C1 at a concrete registry whose current store is populated. -/
theorem cache_first_on_hit_amended_witness :
    (fetchHandler [("nessie-pwa", [("./", "stale")]), ("nessie-pwa-v2", [("./", "fresh")])]
        (fun _ => "netResp") "./").2.1 = 0 ∧
      (fetchHandler [("nessie-pwa", [("./", "stale")]), ("nessie-pwa-v2", [("./", "fresh")])]
          (fun _ => "netResp") "./").2.2
        = [("nessie-pwa", [("./", "stale")]), ("nessie-pwa-v2", [("./", "fresh")])] ∧
      isCachedIn [("nessie-pwa", [("./", "stale")]), ("nessie-pwa-v2", [("./", "fresh")])] "./"
          (fetchHandler [("nessie-pwa", [("./", "stale")]), ("nessie-pwa-v2", [("./", "fresh")])]
            (fun _ => "netResp") "./").1 = true :=
  cache_first_on_hit_amended
    [("nessie-pwa", [("./", "stale")]), ("nessie-pwa-v2", [("./", "fresh")])]
    (fun _ => "netResp") "./" "nessie-pwa-v2" [("./", "fresh")] "fresh" (by decide) (by decide)

/-- C2 counterexample: "./legacy.html" is absent from the current store
`nessie-pwa-v2`, yet the surviving legacy `nessie-pwa` store holds it, so
`caches.match` answers from it and the intercept phase issues zero network
fetches — not the exactly one fetch the claim requires. -/
theorem cache_miss_fallthrough_counterexample :
    ([] : Store).lookup "./legacy.html" = none ∧
      ("nessie-pwa-v2", ([] : Store)) ∈
        ([("nessie-pwa", [("./legacy.html", "stale")]), ("nessie-pwa-v2", [])] : Registry) ∧
      (fetchHandler [("nessie-pwa", [("./legacy.html", "stale")]), ("nessie-pwa-v2", [])]
          (fun _ => "netResp") "./legacy.html").2.1 = 0 ∧
      (fetchHandler [("nessie-pwa", [("./legacy.html", "stale")]), ("nessie-pwa-v2", [])]
          (fun _ => "netResp") "./legacy.html").1 = "stale" := by
  refine ⟨by decide, by decide, by decide, by decide⟩

/-- C2 amended. Cache-miss fallthrough: for every request whose path is
absent from every cache store of the registry, the fetch handler issues
exactly one network fetch, relays the network response unchanged, and writes
nothing into any store. -/
theorem cache_miss_fallthrough_amended (reg : Registry) (net : String → Response)
    (req : String) (h : ∀ n s, (n, s) ∈ reg → s.lookup req = none) :
    fetchHandler reg net req = (net req, 1, reg) := by
  simp [fetchHandler, cachesMatch_eq_none_of_all h]

/-- Witness for C2 at a concrete path absent from every store. -/
theorem cache_miss_fallthrough_amended_witness :
    fetchHandler [("nessie-pwa", [("./legacy.html", "stale")]), ("nessie-pwa-v2", [])]
        (fun _ => "netResp") "./missing"
      = ("netResp", 1, [("nessie-pwa", [("./legacy.html", "stale")]), ("nessie-pwa-v2", [])]) :=
  cache_miss_fallthrough_amended
    [("nessie-pwa", [("./legacy.html", "stale")]), ("nessie-pwa-v2", [])]
    (fun _ => "netResp") "./missing"
    (by
      intro n s hm
      simp only [List.mem_cons, List.not_mem_nil, or_false, Prod.mk.injEq] at hm
      rcases hm with ⟨h1, h2⟩ | ⟨h1, h2⟩ <;> subst h2 <;> decide)

/-- C4. The versioned Cache Identity is a pure function of the build
identifier: equal build identifiers (including both absent) give equal
identities, and an absent identifier gives the fixed development placeholder
name. -/
theorem cacheName_pure_function (b b' : Option String) (h : b = b') :
    cacheName b = cacheName b' ∧ cacheName none = "nessie-pwa-development" :=
  ⟨by rw [h], rfl⟩

/-- Witness for C4 at a concrete build identifier. -/
theorem cacheName_pure_function_witness :
    cacheName (some "20240101") = cacheName (some "20240101") ∧
      cacheName none = "nessie-pwa-development" :=
  cacheName_pure_function (some "20240101") (some "20240101") rfl

/-- C5. Provisioning is all-or-nothing: if fetching any single manifest entry
fails, the whole `addAll` batch fails, the install handler yields no store at
all, and the controller does not reach the active state. -/
theorem provision_all_or_nothing (net : String → Option Response) (cache : Store)
    (p : String) (hp : p ∈ filesToCache) (hf : net p = none) :
    installHandler net cache = none ∧ activates net cache = false := by
  have hb : fetchBatch net filesToCache = none := fetchBatch_eq_none_of_mem hp hf
  constructor
  · simp [installHandler, addAll, hb]
  · simp [activates, installHandler, addAll, hb]

/-- Witness for C5: one failing fetch among the four manifest entries. -/
theorem provision_all_or_nothing_witness :
    "./nessie.js" ∈ filesToCache ∧
      installHandler (fun q => if q == "./nessie.js" then none else some "ok") [] = none ∧
      activates (fun q => if q == "./nessie.js" then none else some "ok") [] = false :=
  ⟨by decide,
    provision_all_or_nothing (fun q => if q == "./nessie.js" then none else some "ok")
      [] "./nessie.js" (by decide) (by decide)⟩

/-- C6. Provision success postcondition: if the install handler succeeds, then
every path of the Asset Manifest has a populated entry in the resulting store. -/
theorem provision_success_populates (net : String → Option Response) (cache cache' : Store)
    (h : installHandler net cache = some cache') :
    ∀ p ∈ filesToCache, (cache'.lookup p).isSome = true := by
  intro p hp
  cases hb : fetchBatch net filesToCache with
  | none => simp [installHandler, addAll, hb] at h
  | some es =>
    simp only [installHandler, addAll, hb, Option.map_some', Option.some.injEq] at h
    subst h
    have hes := fetchBatch_lookup_isSome hb p hp
    rw [List.lookup_append]
    cases hl : es.lookup p with
    | none => rw [hl] at hes; simp at hes
    | some r => simp

/-- Witness for C6: a fully successful provision answers every manifest path. -/
theorem provision_success_populates_witness :
    (([("./", "ok"), ("./index.html", "ok"), ("./nessie.js", "ok"),
        ("./nessie_bg.wasm", "ok")] : Store).lookup "./nessie_bg.wasm").isSome = true :=
  provision_success_populates (fun _ => some "ok") []
    [("./", "ok"), ("./index.html", "ok"), ("./nessie.js", "ok"), ("./nessie_bg.wasm", "ok")]
    (by decide) "./nessie_bg.wasm" (by decide)

/-- C3. Reconcile cleanup: after the activate handler runs with current
identity built from `b2` (superseding `b1`), every surviving store name inside
the `nessie-pwa-` namespace is the current identity (so every other namespaced
store, in particular `b1`'s, was deleted), the current store still appears
with its contents, and every store outside the namespace is untouched. -/
theorem reconcile_cleanup (b1 b2 : String) (reg : Registry) (s2 : Store)
    (hne : b1 ≠ b2) (hcur : (cacheName (some b2), s2) ∈ reg) :
    (∀ n s, (n, s) ∈ activateHandler (cacheName (some b2)) reg →
        jsStartsWith n "nessie-pwa-" = true → n = cacheName (some b2)) ∧
    (∀ s, (cacheName (some b1), s) ∉ activateHandler (cacheName (some b2)) reg) ∧
    (cacheName (some b2), s2) ∈ activateHandler (cacheName (some b2)) reg ∧
    (∀ n s, (n, s) ∈ reg → jsStartsWith n "nessie-pwa-" = false →
        (n, s) ∈ activateHandler (cacheName (some b2)) reg) := by
  have key : ∀ n s, (n, s) ∈ activateHandler (cacheName (some b2)) reg →
      jsStartsWith n "nessie-pwa-" = true → n = cacheName (some b2) := by
    intro n s hmem hstart
    have h2 := (List.mem_filter.mp hmem).2
    simpa [hstart] using h2
  refine ⟨key, ?_, ?_, ?_⟩
  · intro s hmem
    have hstart : jsStartsWith (cacheName (some b1)) "nessie-pwa-" = true :=
      jsStartsWith_append "nessie-pwa-" b1
    exact hne (cacheName_inj (key _ _ hmem hstart))
  · exact List.mem_filter.mpr ⟨hcur, by simp⟩
  · intro n s hmem hstart
    exact List.mem_filter.mpr ⟨hmem, by simp [hstart]⟩

/-- Witness for C3: a registry holding the superseded store, the current store
and an out-of-namespace store. -/
theorem reconcile_cleanup_witness :
    (cacheName (some "v2"), ([("./", "new")] : Store)) ∈
        activateHandler (cacheName (some "v2"))
          [("nessie-pwa-v1", [("./", "old")]), ("nessie-pwa-v2", [("./", "new")]),
            ("other-app", [])] ∧
      (cacheName (some "v1"), ([("./", "old")] : Store)) ∉
        activateHandler (cacheName (some "v2"))
          [("nessie-pwa-v1", [("./", "old")]), ("nessie-pwa-v2", [("./", "new")]),
            ("other-app", [])] := by
  have h := reconcile_cleanup "v1" "v2"
    [("nessie-pwa-v1", [("./", "old")]), ("nessie-pwa-v2", [("./", "new")]), ("other-app", [])]
    [("./", "new")] (by decide) (by decide)
  exact ⟨h.2.2.1, h.2.1 [("./", "old")]⟩

/-- C7. Store immutability: the fetch handler never writes to any store (the
whole registry after interception is the registry before), and the activate
handler only ever removes whole stores — the surviving registry is a sublist
of the old one (no store's entries are rewritten) — and never removes the
current store. -/
theorem store_immutability (net : String → Response) (req : String)
    (cur : String) (reg : Registry) (s : Store) (hs : (cur, s) ∈ reg) :
    (fetchHandler reg net req).2.2 = reg ∧
    (activateHandler cur reg).Sublist reg ∧
    (cur, s) ∈ activateHandler cur reg := by
  refine ⟨?_, List.filter_sublist _, List.mem_filter.mpr ⟨hs, by simp⟩⟩
  cases h : cachesMatch reg req <;> simp [fetchHandler, h]

/-- Witness for C7 at a concrete registry. -/
theorem store_immutability_witness :
    (fetchHandler [("nessie-pwa-v1", []), ("nessie-pwa-v2", [("./", "page")])]
        (fun _ => "netResp") "./x").2.2
      = [("nessie-pwa-v1", []), ("nessie-pwa-v2", [("./", "page")])] ∧
      (activateHandler "nessie-pwa-v2"
          [("nessie-pwa-v1", []), ("nessie-pwa-v2", [("./", "page")])]).Sublist
        [("nessie-pwa-v1", []), ("nessie-pwa-v2", [("./", "page")])] ∧
      ("nessie-pwa-v2", ([("./", "page")] : Store)) ∈
        activateHandler "nessie-pwa-v2"
          [("nessie-pwa-v1", []), ("nessie-pwa-v2", [("./", "page")])] :=
  store_immutability (fun _ => "netResp") "./x" "nessie-pwa-v2"
    [("nessie-pwa-v1", []), ("nessie-pwa-v2", [("./", "page")])] [("./", "page")] (by decide)

/-- C10. The versioned activate handler never deletes the unversioned store
"nessie-pwa": its name lacks the trailing hyphen the namespace filter
requires, so it survives every reconcile. -/
theorem reconcile_spares_unversioned (b : Option String) (reg : Registry) (s : Store)
    (hs : (cacheNameUnversioned, s) ∈ reg) :
    (cacheNameUnversioned, s) ∈ activateHandler (cacheName b) reg := by
  refine List.mem_filter.mpr ⟨hs, ?_⟩
  have hpre : jsStartsWith cacheNameUnversioned "nessie-pwa-" = false := by decide
  simp [hpre]

/-- Witness for C10: the unversioned store survives a versioned reconcile. -/
theorem reconcile_spares_unversioned_witness :
    (cacheNameUnversioned, ([("./", "legacy")] : Store)) ∈
      activateHandler (cacheName (some "v3"))
        [("nessie-pwa", [("./", "legacy")]), ("nessie-pwa-v3", [])] :=
  reconcile_spares_unversioned (some "v3")
    [("nessie-pwa", [("./", "legacy")]), ("nessie-pwa-v3", [])] [("./", "legacy")] (by decide)

/-- C8. onProgress contract: with the progress elements present and a positive
`total`, the displayed bar width and status text carry the percentage
`round(current / total * 100)`; at `current = 50, total = 200` the displayed
width is "25%"; and with `total = 0` no UI state changes at all. -/
theorem onProgress_contract (current total : Nat) (ui : LoaderUI)
    (hBar : ui.hasBar = true) (hText : ui.hasText = true) (hpos : 0 < total) :
    (onProgress current total ui).barWidth
        = toString (jsRound ((current : ℚ) / (total : ℚ) * 100)) ++ "%" ∧
    (onProgress current total ui).statusText
        = "Loading... " ++ toString (jsRound ((current : ℚ) / (total : ℚ) * 100)) ++ "%" ∧
    (onProgress 50 200 ui).barWidth = "25%" ∧
    onProgress current 0 ui = ui := by
  have h25 : jsRound (((50 : Nat) : ℚ) / ((200 : Nat) : ℚ) * 100) = 25 := by
    norm_num [jsRound, Rat.floor_def']
  have main : ∀ c t : Nat, 0 < t →
      (onProgress c t ui).barWidth = toString (jsRound ((c : ℚ) / (t : ℚ) * 100)) ++ "%" ∧
      (onProgress c t ui).statusText
        = "Loading... " ++ toString (jsRound ((c : ℚ) / (t : ℚ) * 100)) ++ "%" := by
    intro c t ht
    constructor <;> simp [onProgress, ht, hBar, hText]
  refine ⟨(main current total hpos).1, (main current total hpos).2, ?_, by simp [onProgress]⟩
  rw [(main 50 200 (by decide)).1, h25]
  rfl

/-- Witness for C8 at a concrete UI with all elements present. -/
theorem onProgress_contract_witness :
    (onProgress 50 200 ⟨true, true, true, "block", "", "", ""⟩).barWidth = "25%" :=
  (onProgress_contract 50 200 ⟨true, true, true, "block", "", "", ""⟩ rfl rfl
    (by decide)).2.2.1

/-- C9. onFailure contract and frame: after `onStart` then `onFailure err`
(with both elements present), the progress container is hidden, the status
text is the failure message carrying the error value, and a subsequent
`onSuccess` changes nothing (it is the identity on the UI state). -/
theorem onFailure_contract (err : String) (ui : LoaderUI)
    (hc : ui.hasContainer = true) (ht : ui.hasText = true) :
    (onFailure err (onStart ui)).containerDisplay = "none" ∧
    (onFailure err (onStart ui)).statusText = "Failed to load: " ++ err ∧
    onSuccess (onFailure err (onStart ui)) = onFailure err (onStart ui) := by
  simp [onStart, onFailure, onSuccess, hc, ht]

/-- Witness for C9 at a concrete error and UI. -/
theorem onFailure_contract_witness :
    (onFailure "net down" (onStart ⟨true, true, true, "", "", "", ""⟩)).containerDisplay
        = "none" ∧
      (onFailure "net down" (onStart ⟨true, true, true, "", "", "", ""⟩)).statusText
        = "Failed to load: " ++ "net down" ∧
      onSuccess (onFailure "net down" (onStart ⟨true, true, true, "", "", "", ""⟩))
        = onFailure "net down" (onStart ⟨true, true, true, "", "", "", ""⟩) :=
  onFailure_contract "net down" ⟨true, true, true, "", "", "", ""⟩ rfl rfl

end Nessie
